import Mathlib

/-!
Verification of the OAuth relier model (`app/scripts/models/reliers/oauth.js`)
and the shared sign-in mixin (`app/scripts/views/mixins/signin-mixin.js`) of
the fxa-content-server repository.

The JavaScript source is shallowly embedded: query parameters and other
possibly-absent values become `Option String`, promise rejection becomes
`Except`, and the results of the network calls (client-info fetch,
`signInAccount`, `sendUnblockEmail`) are passed in explicitly as an
environment, matching the single-threaded promise-chain control flow.
-/

set_option autoImplicit false

namespace FxA

instance instExceptDecEq {ε α : Type} [DecidableEq ε] [DecidableEq α] :
    DecidableEq (Except ε α) := fun x y =>
  match x, y with
  | .ok a, .ok b =>
    if h : a = b then .isTrue (by rw [h])
    else .isFalse (fun hc => h (Except.ok.inj hc))
  | .error a, .error b =>
    if h : a = b then .isTrue (by rw [h])
    else .isFalse (fun hc => h (Except.error.inj hc))
  | .ok _, .error _ => .isFalse (fun hc => Except.noConfusion hc)
  | .error _, .ok _ => .isFalse (fun hc => Except.noConfusion hc)

/-! ### JavaScript string primitives

`String.prototype.trim` and `String.prototype.split(/\s+/g)`.  A `\s+` match
consumes a maximal whitespace run (the regex is greedy), so splitting cuts the
string at each whitespace run, producing an empty piece when the string starts
or ends with whitespace.  We model `\s` by the four common whitespace
characters; the claims only involve plain spaces. -/

def isWs (c : Char) : Bool :=
  c = ' ' || c = '\t' || c = '\n' || c = '\r'

/-- Drop a leading whitespace run. -/
def dropWs : List Char → List Char
  | [] => []
  | c :: cs => if isWs c then dropWs cs else c :: cs

theorem dropWs_length_le (l : List Char) : (dropWs l).length ≤ l.length := by
  induction l with
  | nil => simp [dropWs]
  | cons c cs ih =>
    simp only [dropWs]
    split
    · exact Nat.le_succ_of_le ih
    · exact Nat.le_refl _

/-- One splitting step.  `skipping = true` means the previous character was
part of a whitespace run whose piece has already been emitted; `acc` holds the
characters of the current piece in reverse.  A greedy `\s+` match consumes a
maximal whitespace run, so a run emits exactly one piece boundary. -/
def splitWsGo : Bool → List Char → List Char → List String
  | _, [], acc => [String.mk acc.reverse]
  | skipping, c :: cs, acc =>
    if isWs c then
      if skipping then splitWsGo true cs []
      else String.mk acc.reverse :: splitWsGo true cs []
    else splitWsGo false cs (c :: acc)

/-- JavaScript `s.split(/\s+/g)` (for a string whose trim is nonempty). -/
def splitWs (s : String) : List String :=
  splitWsGo false s.data []

/-- JavaScript `String.prototype.trim` (on the character list). -/
def jsTrim (l : List Char) : List Char :=
  ((dropWs l).reverse |> dropWs).reverse

/-! ### underscore.js list helpers (only the parts `oauth.js` uses) -/

/-- Kernel of `_.uniq`: keep the first occurrence of each element; `seen`
accumulates the elements already emitted. -/
def uniqAux : List String → List String → List String
  | _, [] => []
  | seen, x :: xs =>
    if x ∈ seen then uniqAux seen xs else x :: uniqAux (x :: seen) xs

/-- `_.uniq`: deduplicate keeping first occurrences, preserving order. -/
def uniq (l : List String) : List String :=
  uniqAux [] l

/-- `_.without(array, item)`: remove every occurrence of `item`. -/
def without (array : List String) (item : String) : List String :=
  array.filter (fun x => decide (x ≠ item))

/-- `_.union(a, b)`: unique items of `a ++ b` in order of first appearance. -/
def union (a b : List String) : List String :=
  uniq (a ++ b)

/-- `_.intersection(a, b)`: unique items of `a` also present in `b`,
in `a`'s order. -/
def intersectionU (a b : List String) : List String :=
  uniq (a.filter (fun x => decide (x ∈ b)))

/-! ### oauth.js scope helpers -/

/-- `replaceItemInArray` (oauth.js line 285): if `itemToReplace` occurs,
remove all its occurrences and take the union with `replaceWith`;
otherwise return the array unchanged. -/
def replaceItemInArray (array : List String) (itemToReplace : String)
    (replaceWith : List String) : List String :=
  let w := without array itemToReplace
  if w.length ≠ array.length then union w replaceWith else array

/-- `scopeStrToArray` (oauth.js line 293).  Note two quirks kept from the
source: the `if (! _.isString)` guard never fires (the function reference is
not called, and our input is a string anyway), and the split is applied to
`scopes`, not to the computed `trimmedScopes`. -/
def scopeStrToArray (scopes : String) : List String :=
  let trimmedScopes := jsTrim scopes.data
  if trimmedScopes.length ≠ 0 then uniq (splitWs scopes) else []

/-! ### oauth.js constants and errors -/

/-- OAuth-flow error taxonomy (`lib/oauth-errors`), as far as oauth.js uses
it.  `INVALID_PARAMETER` carries the offending field (the source stores it in
`err.validation.keys[0]`), `UNKNOWN_CLIENT` the offending client id. -/
inductive OAuthError where
  | INVALID_PARAMETER (field : String)
  | MISSING_PARAMETER (field : String)
  | UNKNOWN_CLIENT (clientId : String)
  | INCORRECT_REDIRECT
deriving DecidableEq

/-- Modelled from the spec: `lib/constants` is not in src; the spec (§4.2,
glossary) designates `prompt=consent` as the consent request. -/
def OAUTH_PROMPT_CONSENT : String := "consent"

/-- Modelled from the spec: `lib/constants` is not in src; the spec (§4.2)
designates `profile` as the expandable scope token.  Its expansion list and
the untrusted allow-list are left as parameters below. -/
def OAUTH_TRUSTED_PROFILE_SCOPE : String := "profile"

/-- `sanitizeUntrustedPermissions` (oauth.js line 306), with the allow-list
constant `OAUTH_UNTRUSTED_ALLOWED_PERMISSIONS` as a parameter. -/
def sanitizeUntrustedPermissions (allowed : List String)
    (permissions : List String) : List String :=
  intersectionU permissions allowed

/-- JavaScript `Array.prototype.join(' ')`. -/
def joinSpace (l : List String) : String :=
  String.intercalate " " l

/-- The permission list `_normalizeScopesAndPermissions` (oauth.js line 109)
computes before its emptiness check.  `trusted` and `wantsConsentB` are the
values of `this.isTrusted()` / `this.wantsConsent()`; `expansion` and
`allowed` stand for the two constants not present in src. -/
def finalPermissions (trusted wantsConsentB : Bool)
    (expansion allowed : List String) (scope : String) : List String :=
  let permissions := scopeStrToArray scope
  if trusted then
    if wantsConsentB then
      replaceItemInArray permissions OAUTH_TRUSTED_PROFILE_SCOPE expansion
    else permissions
  else sanitizeUntrustedPermissions allowed permissions

/-- `_normalizeScopesAndPermissions` (oauth.js line 109): the branched
permission list, then the emptiness check.  Returns the final
`(scope, permissions)` pair that the source stores with `this.set`, or the
thrown error. -/
def normalizeScopesAndPermissions (trusted wantsConsentB : Bool)
    (expansion allowed : List String) (scope : String) :
    Except OAuthError (String × List String) :=
  let permissions := finalPermissions trusted wantsConsentB expansion allowed scope
  if permissions.length = 0 then .error (.INVALID_PARAMETER "scope")
  else .ok (joinSpace permissions, permissions)

/-! ### oauth.js relier resolution -/

/-- The client-registry record after the `CLIENT_INFO_SCHEMA` transform
(oauth.js line 20). -/
structure ClientInfo where
  clientId : String
  imageUri : Option String
  serviceName : String
  redirectUri : String
  trusted : Bool
deriving DecidableEq

/-- The remap test of `_setupOAuthRPInfo`'s error branch:
`OAuthErrors.is(err, 'INVALID_PARAMETER') && err.validation.keys[0] ===
'client_id'`. -/
def isInvalidClientIdError : OAuthError → Bool
  | .INVALID_PARAMETER field => field = "client_id"
  | _ => false

/-- `_setupOAuthRPInfo` (oauth.js line 173).  `queryRedirectUri` is the
app-provided `redirectUri` (absent on the verification path), `fetchResult`
the outcome of `this._oAuthClient.getClientInfo(clientId)` followed by the
client-info schema transform. -/
def setupOAuthRPInfo (verificationFlow : Bool) (queryRedirectUri : Option String)
    (clientId : String) (fetchResult : Except OAuthError ClientInfo) :
    Except OAuthError ClientInfo :=
  match fetchResult with
  | .ok result =>
    if ¬ verificationFlow ∧ some result.redirectUri ≠ queryRedirectUri then
      .error .INCORRECT_REDIRECT
    else .ok result
  | .error err =>
    if isInvalidClientIdError err then .error (.UNKNOWN_CLIENT clientId)
    else .error err

/-- The query parameters read by `SIGNIN_SIGNUP_QUERY_PARAM_SCHEMA`
(oauth.js line 28), plus `service` which the schema does not list but
`_setupSignInSignUpFlow` inspects.  `none` is an absent parameter. -/
structure SignupRequest where
  access_type : Option String
  client_id : Option String
  code_challenge : Option String
  code_challenge_method : Option String
  keys_jwk : Option String
  prompt : Option String
  redirectTo : Option String
  redirect_uri : Option String
  scope : Option String
  st : Option String
  service : Option String
deriving DecidableEq

/-- The pluggable Vat validator predicates (`lib/vat` is not in src; the spec
§4.1 treats them as opaque predicates over the raw string). -/
structure Validators where
  accessType : String → Bool
  clientId : String → Bool
  codeChallenge : String → Bool
  codeChallengeMethod : String → Bool
  keysJwk : String → Bool
  prompt : String → Bool
  url : String → Bool

/-- Modelled from the spec: `lib/transform` is not in src.  §4.1: a present
field failing its validator yields INVALID_PARAMETER on that field; a required
absent field yields MISSING_PARAMETER. -/
def checkField (valid : String → Bool) (field : String) (value : Option String)
    (required : Bool) : Except OAuthError Unit :=
  match value with
  | none => if required then .error (.MISSING_PARAMETER field) else .ok ()
  | some s => if valid s then .ok () else .error (.INVALID_PARAMETER field)

/-- Modelled from the spec: `importSearchParamsUsingSchema` with
`SIGNIN_SIGNUP_QUERY_PARAM_SCHEMA` — each schema field checked in the schema's
declaration order, stopping at the first offending field (§4.1);
`client_id` and `scope` are `required()`, and `scope` carries `min(1)`. -/
def importSignInSignUpParams (v : Validators) (r : SignupRequest) :
    Except OAuthError Unit :=
  Except.bind (checkField v.accessType "access_type" r.access_type false) fun _ =>
  Except.bind (checkField v.clientId "client_id" r.client_id true) fun _ =>
  Except.bind (checkField v.codeChallenge "code_challenge" r.code_challenge false) fun _ =>
  Except.bind (checkField v.codeChallengeMethod "code_challenge_method"
    r.code_challenge_method false) fun _ =>
  Except.bind (checkField v.keysJwk "keys_jwk" r.keys_jwk false) fun _ =>
  Except.bind (checkField v.prompt "prompt" r.prompt false) fun _ =>
  Except.bind (checkField v.url "redirectTo" r.redirectTo false) fun _ =>
  Except.bind (checkField v.url "redirect_uri" r.redirect_uri false) fun _ =>
  Except.bind (checkField (fun s => decide (1 ≤ s.length)) "scope" r.scope true) fun _ =>
  checkField (fun _ => true) "state" r.st false

/-- `_setupSignInSignUpFlow` (oauth.js line 160): run the schema import, then
reject any (truthy, per `if (this.getSearchParam('service'))`) `service`
parameter with INVALID_PARAMETER. -/
def setupSignInSignUpFlow (v : Validators) (r : SignupRequest) :
    Except OAuthError Unit :=
  match importSignInSignUpParams v r with
  | .error e => .error e
  | .ok _ =>
    if (r.service.getD "") ≠ "" then Except.error (.INVALID_PARAMETER "service")
    else .ok ()

/-! ### signin-mixin.js data model -/

/-- `lib/verification-reasons` tokens used by the mixin (not in src; the spec
names the sign-in reason explicitly, other reasons exist, e.g. sign-up). -/
inductive VerificationReason where
  | SIGN_IN
  | SIGN_UP
deriving DecidableEq

/-- `lib/verification-methods` tokens used by the mixin (not in src; the spec
names email-link, email-code, TOTP-code, captcha). -/
inductive VerificationMethod where
  | EMAIL
  | EMAIL_2FA
  | EMAIL_CAPTCHA
  | TOTP_2FA
deriving DecidableEq

/-- `lib/auth-errors` kinds the mixin branches on, plus an opaque rest. -/
inductive AuthErrorKind where
  | THROTTLED
  | REQUEST_BLOCKED
  | EMAIL_HARD_BOUNCE
  | EMAIL_SENT_COMPLAINT
  | UNEXPECTED_ERROR
  | OTHER (code : Nat)
deriving DecidableEq

/-- An auth error; blocked-signin errors carry the verification reason and
method the mixin inspects in `onSignInBlocked`. -/
structure AuthError where
  kind : AuthErrorKind
  verificationReason : Option VerificationReason
  verificationMethod : Option VerificationMethod
deriving DecidableEq

def UNEXPECTED_ERROR : AuthError :=
  { kind := .UNEXPECTED_ERROR, verificationReason := none,
    verificationMethod := none }

/-- What a resolved promise of the mixin carries: a `navigate(screen, …)`
call, or the value of the post-sign-in broker method
(`invokeBrokerMethod(brokerMethod, account)`). -/
inductive Outcome where
  | navigate (screen : String)
  | brokerResult (method : String)
deriving DecidableEq

/-- The broker capabilities the mixin queries via `hasCapability`. -/
structure Broker where
  reuseExistingSession : Bool
  allowUidChange : Bool
deriving DecidableEq

/-- The relier attributes the mixin reads: `trusted`, `prompt`, `clientId`,
`permissions` (set by scope normalization), and the stored `uid`. -/
structure Relier where
  trusted : Bool
  prompt : Option String
  clientId : String
  permissions : List String
  uid : Option String
deriving DecidableEq

/-- The account attributes the mixin and `accountNeedsPermissions` read.
`permissionsWithValues` is the set of permissions for which the account holds
a value, `seenPermissions` maps a client id to the permissions already seen
for it (both modelled from the spec: the account model is not in src). -/
structure Account where
  isDefault : Bool
  hasSessionToken : Bool
  verified : Bool
  verificationReason : Option VerificationReason
  verificationMethod : Option VerificationMethod
  uid : String
  email : String
  permissionsWithValues : List String
  seenPermissions : List (String × List String)
deriving DecidableEq

/-- `wantsConsent` (oauth.js line 214): `prompt === 'consent'`. -/
def wantsConsent (relier : Relier) : Bool :=
  relier.prompt = some OAUTH_PROMPT_CONSENT

/-- The permissions the account has already seen for `clientId`. -/
def seenFor (account : Account) (clientId : String) : List String :=
  (List.lookup clientId account.seenPermissions).getD []

/-- Modelled from the spec: `account.getPermissionsWithValues` is not in src;
§4.4 — the requested permissions for which the account holds a value. -/
def getPermissionsWithValues (account : Account)
    (permissions : List String) : List String :=
  permissions.filter (fun p => decide (p ∈ account.permissionsWithValues))

/-- Modelled from the spec: `account.hasSeenPermissions` is not in src;
§4.4 — whether every listed permission was previously seen for the client. -/
def hasSeenPermissions (account : Account) (clientId : String)
    (permissions : List String) : Bool :=
  permissions.all (fun p => decide (p ∈ seenFor account clientId))

/-- `accountNeedsPermissions` (oauth.js line 271). -/
def accountNeedsPermissions (relier : Relier) (account : Account) : Bool :=
  if relier.trusted = true ∧ wantsConsent relier = false then false
  else
    ! hasSeenPermissions account relier.clientId
      (getPermissionsWithValues account relier.permissions)

/-! ### signin-mixin.js control flow -/

/-- JavaScript truthiness of the `password` argument (`! password` is true for
`undefined`, `null` and the empty string). -/
def hasPassword : Option String → Bool
  | none => false
  | some p => p ≠ ""

/-- `onSignInBlocked` (signin-mixin.js line 113).  `sendUnblockResult` is the
outcome of `account.sendUnblockEmail()`.  The first component records whether
the unblock-email send was attempted; the second is the settled promise. -/
def onSignInBlocked (sendUnblockResult : Except AuthError Unit)
    (err : AuthError) : Bool × Except AuthError Outcome :=
  if err.verificationReason = some VerificationReason.SIGN_IN ∧
      err.verificationMethod = some VerificationMethod.EMAIL_CAPTCHA then
    match sendUnblockResult with
    | .ok _ => (true, .ok (.navigate "signin_unblock"))
    | .error e => (true, .error e)
  else
    (false, .error err)

/-- The observable effects of `onSignInSuccess`: the relier afterwards, the
view-model `redirectTo` afterwards, the one-shot navigate behavior registered
on the broker (method name and target), and the settled outcome. -/
structure SuccessResult where
  relier : Relier
  redirectTo : Option String
  behavior : Option (String × String)
  outcome : Outcome
deriving DecidableEq

/-- `onSignInSuccess` (signin-mixin.js line 137).  `redirectTo` is
`this.model.get('redirectTo')`; `afterSignInBrokerMethod` is the optional
override of the post-sign-in broker method name (`|| 'afterSignIn'`).
Telemetry calls (`logEvent`, `logViewEvent`) have no modelled effect. -/
def onSignInSuccess (broker : Broker) (relier : Relier)
    (redirectTo : Option String) (afterSignInBrokerMethod : Option String)
    (account : Account) : SuccessResult :=
  if account.verified = false then
    { relier := relier, redirectTo := redirectTo, behavior := none,
      outcome :=
        if account.verificationReason = some VerificationReason.SIGN_IN ∧
            account.verificationMethod = some VerificationMethod.EMAIL then
          .navigate "confirm_signin"
        else if account.verificationReason = some VerificationReason.SIGN_IN ∧
            account.verificationMethod = some VerificationMethod.EMAIL_2FA then
          .navigate "signin_token_code"
        else if account.verificationReason = some VerificationReason.SIGN_IN ∧
            account.verificationMethod = some VerificationMethod.TOTP_2FA then
          .navigate "signin_totp_code"
        else .navigate "confirm" }
  else
    let relier' :=
      if some account.uid ≠ relier.uid ∧ broker.allowUidChange = true then
        { relier with uid := some account.uid }
      else relier
    let brokerMethod := afterSignInBrokerMethod.getD "afterSignIn"
    match redirectTo with
    | some target =>
      { relier := relier', redirectTo := none,
        behavior := some (brokerMethod, target),
        outcome := .brokerResult brokerMethod }
    | none =>
      { relier := relier', redirectTo := none, behavior := none,
        outcome := .brokerResult brokerMethod }

/-- Outcomes of the suspension points `signIn` runs through: the
authentication call and (when reached) the unblock-email send.  The
`beforeSignIn` broker hook is taken to resolve; the experiment override and
`discardSessionToken` affect only the authentication call's inputs, which are
already summarised by `signInAccountResult`. -/
structure SignInEnv where
  signInAccountResult : Except AuthError Account
  sendUnblockResult : Except AuthError Unit
deriving DecidableEq

/-- The observable result of one `signIn` run. -/
structure SignInOutput where
  sentUnblockEmail : Bool
  relier : Relier
  result : Except AuthError Outcome
deriving DecidableEq

/-- `signIn` (signin-mixin.js line 37), as a function of the environment. -/
def signIn (env : SignInEnv) (broker : Broker) (relier : Relier)
    (afterSignInBrokerMethod : Option String) (redirectTo : Option String)
    (account : Option Account) (password : Option String) : SignInOutput :=
  match account with
  | none => ⟨false, relier, .error UNEXPECTED_ERROR⟩
  | some a =>
    if a.isDefault = true ∨ (a.hasSessionToken = false ∧ hasPassword password = false) then
      ⟨false, relier, .error UNEXPECTED_ERROR⟩
    else
      match env.signInAccountResult with
      | .ok acct =>
        if accountNeedsPermissions relier acct then
          ⟨false, relier, .ok (.navigate "signin_permissions")⟩
        else
          let s := onSignInSuccess broker relier redirectTo
            afterSignInBrokerMethod acct
          ⟨false, s.relier, .ok s.outcome⟩
      | .error err =>
        if err.kind = .THROTTLED ∨ err.kind = .REQUEST_BLOCKED then
          let b := onSignInBlocked env.sendUnblockResult err
          ⟨b.1, relier, b.2⟩
        else if err.kind = .EMAIL_HARD_BOUNCE ∨ err.kind = .EMAIL_SENT_COMPLAINT then
          ⟨false, relier, .ok (.navigate "signin_bounced")⟩
        else
          ⟨false, relier, .error err⟩

/-! ### Concrete fixtures used by witnesses and counterexamples -/

/-- Validators that accept everything (C2 fixtures). -/
def c2Validators : Validators :=
  ⟨fun _ => true, fun _ => true, fun _ => true, fun _ => true,
   fun _ => true, fun _ => true, fun _ => true⟩

/-- A request carrying `service` but missing the required `client_id`. -/
def c2ReqNoClientId : SignupRequest :=
  ⟨none, none, none, none, none, none, none, none, some "profile", none,
   some "sync"⟩

/-- A schema-valid request carrying `service`. -/
def c2ReqValid : SignupRequest :=
  ⟨none, some "abcdef", none, none, none, none, none, none, some "profile",
   none, some "sync"⟩

/-- A THROTTLED error carrying no verification fields (C3 fixture). -/
def c3ErrPlain : AuthError := ⟨.THROTTLED, none, none⟩

/-- A REQUEST_BLOCKED error that can be unblocked (C3 fixture). -/
def c3ErrUnblockable : AuthError :=
  ⟨.REQUEST_BLOCKED, some .SIGN_IN, some .EMAIL_CAPTCHA⟩

def c3EnvPlain : SignInEnv := ⟨.error c3ErrPlain, .ok ()⟩

def c3EnvUnblockable : SignInEnv := ⟨.error c3ErrUnblockable, .ok ()⟩

def c3Broker : Broker := ⟨false, false⟩

def c3Relier : Relier := ⟨true, none, "client1", ["profile"], none⟩

def c3Account : Account :=
  ⟨false, true, true, none, none, "uid1", "a@example.com", [], []⟩

/-- A trusted relier with no consent prompt (C10 fixture). -/
def c10Relier : Relier := ⟨true, none, "client1", ["profile"], none⟩

def c10Account : Account :=
  ⟨false, true, true, none, none, "uid1", "a@example.com", ["profile"], []⟩

/-! ### Lemmas about the underscore helpers -/

theorem mem_uniqAux (l : List String) :
    ∀ (seen : List String) (y : String),
      y ∈ uniqAux seen l ↔ y ∈ l ∧ y ∉ seen := by
  induction l with
  | nil => intro seen y; simp [uniqAux]
  | cons x xs ih =>
    intro seen y
    simp only [uniqAux]
    by_cases hx : x ∈ seen <;> by_cases hyx : y = x <;>
      simp [hx, hyx, ih, List.mem_cons]

theorem uniqAux_nodup (l : List String) :
    ∀ seen : List String, (uniqAux seen l).Nodup := by
  induction l with
  | nil => intro seen; simp [uniqAux]
  | cons x xs ih =>
    intro seen
    simp only [uniqAux]
    by_cases hx : x ∈ seen
    · rw [if_pos hx]; exact ih seen
    · rw [if_neg hx]
      refine List.nodup_cons.mpr ⟨?_, ih (x :: seen)⟩
      intro hc
      exact ((mem_uniqAux xs (x :: seen) x).mp hc).2 (List.mem_cons_self x seen)

theorem uniq_nodup (l : List String) : (uniq l).Nodup :=
  uniqAux_nodup l []

theorem mem_uniq (l : List String) (y : String) : y ∈ uniq l ↔ y ∈ l := by
  rw [uniq, mem_uniqAux]; simp

theorem uniqAux_eq_filter (l : List String) (hl : l.Nodup) :
    ∀ seen : List String,
      uniqAux seen l = l.filter (fun x => decide (x ∉ seen)) := by
  induction l with
  | nil => intro seen; simp [uniqAux]
  | cons x xs ih =>
    intro seen
    rcases List.nodup_cons.mp hl with ⟨hx, hxs⟩
    simp only [uniqAux, List.filter_cons]
    by_cases hmem : x ∈ seen
    · rw [if_pos hmem, if_neg (by simp [hmem])]
      exact ih hxs seen
    · rw [if_neg hmem, if_pos (by simp [hmem]), ih hxs (x :: seen)]
      refine congrArg (x :: ·) (List.filter_congr ?_)
      intro y hy
      have hyx : y ≠ x := fun h => hx (h ▸ hy)
      simp [List.mem_cons, hyx]

theorem uniq_eq_self (l : List String) (hl : l.Nodup) : uniq l = l := by
  rw [uniq, uniqAux_eq_filter l hl]
  simp

theorem uniqAux_append_left (e : List String) :
    ∀ (w : List String), w.Nodup →
      ∀ seen : List String, (∀ x ∈ w, x ∉ seen) →
        uniqAux seen (w ++ e) = w ++ uniqAux (w.reverse ++ seen) e := by
  intro w
  induction w with
  | nil => intro _ seen _; simp
  | cons x ws ih =>
    intro hnd seen hseen
    rcases List.nodup_cons.mp hnd with ⟨hx, hws⟩
    have hxseen : x ∉ seen := hseen x (List.mem_cons_self x ws)
    simp only [List.cons_append, uniqAux, if_neg hxseen, List.append_eq]
    rw [ih hws (x :: seen) ?nextSeen]
    · simp [List.reverse_cons, List.append_assoc]
    case nextSeen =>
      intro y hy
      simp only [List.mem_cons]
      rintro (rfl | hc)
      · exact hx hy
      · exact hseen y (List.mem_cons_of_mem _ hy) hc

theorem union_eq_append (w e : List String) (hw : w.Nodup) (he : e.Nodup) :
    union w e = w ++ e.filter (fun x => decide (x ∉ w)) := by
  rw [union, uniq, uniqAux_append_left e w hw [] (by simp),
    uniqAux_eq_filter e he]
  refine congrArg (w ++ ·) (List.filter_congr ?_)
  intro y _
  simp [List.mem_reverse]

theorem union_nodup (w e : List String) : (union w e).Nodup :=
  uniq_nodup _

theorem mem_without (l : List String) (item y : String) :
    y ∈ without l item ↔ y ∈ l ∧ y ≠ item := by
  simp [without, List.mem_filter]

theorem not_mem_without_self (l : List String) (item : String) :
    item ∉ without l item := by
  simp [mem_without]

theorem without_nodup (l : List String) (item : String) (hl : l.Nodup) :
    (without l item).Nodup :=
  hl.filter _

theorem without_length_lt (l : List String) (item : String) (h : item ∈ l) :
    (without l item).length < l.length := by
  induction l with
  | nil => cases h
  | cons a l ih =>
    rw [without, List.filter_cons]
    by_cases hap : a = item
    · subst hap
      rw [if_neg (by simp)]
      exact Nat.lt_succ_of_le (List.length_filter_le _ l)
    · have hmem : item ∈ l := by
        rcases List.mem_cons.mp h with h' | h'
        · exact absurd h'.symm hap
        · exact h'
      rw [if_pos (by simp [hap])]
      have := ih hmem
      rw [without] at this
      simpa using Nat.succ_lt_succ this

theorem scopeStrToArray_nodup (s : String) : (scopeStrToArray s).Nodup := by
  rw [scopeStrToArray]
  split
  · exact uniq_nodup _
  · exact List.nodup_nil

theorem intersectionU_eq_filter (a b : List String) (ha : a.Nodup) :
    intersectionU a b = a.filter (fun x => decide (x ∈ b)) := by
  rw [intersectionU, uniq_eq_self _ (ha.filter _)]

/-! ### Claim theorems -/

/-- C4: the claim says step 1 of scope normalization splits on whitespace,
**trims**, and deduplicates preserving first-seen order, and that
empty/whitespace-only input yields the empty list.  Deduplication and the
whitespace-only case hold, but the source splits the untrimmed string (the
computed `trimmedScopes` is not the value being split), so an input with
leading whitespace keeps an empty token: `scopeStrToArray " a" = ["", "a"]`,
not `["a"]` as the claim requires. -/
theorem scopeStrToArray_trim_bug :
    scopeStrToArray "a b a c" = ["a", "b", "c"] ∧
    scopeStrToArray "" = [] ∧
    scopeStrToArray "   " = [] ∧
    scopeStrToArray " a" = ["", "a"] ∧
    (["", "a"] : List String) ≠ ["a"] :=
  ⟨by decide, by decide, by decide, by decide, by decide⟩

/-- C9: after normalization the stored `scope` does equal the permissions
joined by single spaces (second conjunct), but the round-trip part of the
claim fails: for the trusted/consent normalization of `"profile a "` the
stored scope is `"a  profile:email"` (an empty token survived the untrimmed
split, leaving a double space), and re-normalizing that already-normalized
scope yields `"a profile:email"`, a different string. -/
theorem normalize_roundtrip_bug :
    normalizeScopesAndPermissions true true ["profile:email"] [] "profile a "
      = .ok ("a  profile:email", ["a", "", "profile:email"]) ∧
    joinSpace ["a", "", "profile:email"] = "a  profile:email" ∧
    normalizeScopesAndPermissions true true ["profile:email"] [] "a  profile:email"
      = .ok ("a profile:email", ["a", "profile:email"]) ∧
    ("a profile:email" : String) ≠ "a  profile:email" :=
  ⟨rfl, rfl, rfl, by decide⟩

/-- C6: on the non-verification path a client-info redirect URI different
from the request-supplied one makes `_setupOAuthRPInfo` fail with
INCORRECT_REDIRECT; on the verification path the same mismatch is not
checked and the client info is accepted. -/
theorem redirect_uri_cross_validation (ci : ClientInfo) (clientId : String)
    (q : Option String) (h : q ≠ some ci.redirectUri) :
    setupOAuthRPInfo false q clientId (.ok ci) = .error .INCORRECT_REDIRECT ∧
    setupOAuthRPInfo true q clientId (.ok ci) = .ok ci := by
  have h' : some ci.redirectUri ≠ q := Ne.symm h
  constructor
  · simp [setupOAuthRPInfo, h']
  · simp [setupOAuthRPInfo]

theorem redirect_uri_cross_validation_witness :
    (some "https://bad.example" ≠
      some (ClientInfo.mk "c1" none "Svc" "https://good.example" true).redirectUri) ∧
    setupOAuthRPInfo false (some "https://bad.example") "c1"
      (.ok (ClientInfo.mk "c1" none "Svc" "https://good.example" true))
      = .error .INCORRECT_REDIRECT ∧
    setupOAuthRPInfo true (some "https://bad.example") "c1"
      (.ok (ClientInfo.mk "c1" none "Svc" "https://good.example" true))
      = .ok (ClientInfo.mk "c1" none "Svc" "https://good.example" true) := by
  refine ⟨by decide, ?_⟩
  exact redirect_uri_cross_validation
    (ClientInfo.mk "c1" none "Svc" "https://good.example" true) "c1"
    (some "https://bad.example") (by decide)

/-- C1: for a deduplicated permission list containing the expandable token
`profile`, the trusted/consent expansion removes every occurrence of
`profile`, keeps the remaining tokens in place (each already-present
expansion token keeps its first-occurrence position), appends exactly the
expansion tokens not already present, and produces no duplicates. -/
theorem profile_scope_expansion (l e : List String) (hl : l.Nodup)
    (he : e.Nodup) (hmem : OAUTH_TRUSTED_PROFILE_SCOPE ∈ l)
    (hne : OAUTH_TRUSTED_PROFILE_SCOPE ∉ e) :
    replaceItemInArray l OAUTH_TRUSTED_PROFILE_SCOPE e
      = without l OAUTH_TRUSTED_PROFILE_SCOPE
        ++ e.filter (fun x => decide (x ∉ without l OAUTH_TRUSTED_PROFILE_SCOPE)) ∧
    (replaceItemInArray l OAUTH_TRUSTED_PROFILE_SCOPE e).Nodup ∧
    OAUTH_TRUSTED_PROFILE_SCOPE ∉ replaceItemInArray l OAUTH_TRUSTED_PROFILE_SCOPE e ∧
    ∀ x ∈ e, x ∈ replaceItemInArray l OAUTH_TRUSTED_PROFILE_SCOPE e := by
  have hlt : (without l OAUTH_TRUSTED_PROFILE_SCOPE).length ≠ l.length :=
    Nat.ne_of_lt (without_length_lt l OAUTH_TRUSTED_PROFILE_SCOPE hmem)
  have hrepl : replaceItemInArray l OAUTH_TRUSTED_PROFILE_SCOPE e
      = union (without l OAUTH_TRUSTED_PROFILE_SCOPE) e := by
    simp only [replaceItemInArray]
    rw [if_pos hlt]
  have hu : union (without l OAUTH_TRUSTED_PROFILE_SCOPE) e
      = without l OAUTH_TRUSTED_PROFILE_SCOPE
        ++ e.filter (fun x => decide (x ∉ without l OAUTH_TRUSTED_PROFILE_SCOPE)) :=
    union_eq_append _ _ (without_nodup l _ hl) he
  refine ⟨hrepl.trans hu, ?_, ?_, ?_⟩
  · rw [hrepl]; exact union_nodup _ _
  · rw [hrepl, hu]
    intro hc
    rcases List.mem_append.mp hc with h1 | h1
    · exact not_mem_without_self l _ h1
    · exact hne (List.mem_filter.mp h1).1
  · intro x hx
    rw [hrepl, hu]
    by_cases hxw : x ∈ without l OAUTH_TRUSTED_PROFILE_SCOPE
    · exact List.mem_append.mpr (Or.inl hxw)
    · exact List.mem_append.mpr
        (Or.inr (List.mem_filter.mpr ⟨hx, by simp [hxw]⟩))

theorem profile_scope_expansion_witness :
    (["profile", "a"] : List String).Nodup ∧
    replaceItemInArray ["profile", "a"] OAUTH_TRUSTED_PROFILE_SCOPE
        ["profile:email", "a", "profile:uid"]
      = without ["profile", "a"] OAUTH_TRUSTED_PROFILE_SCOPE
        ++ (["profile:email", "a", "profile:uid"].filter
          (fun x => decide (x ∉ without ["profile", "a"] OAUTH_TRUSTED_PROFILE_SCOPE))) ∧
    OAUTH_TRUSTED_PROFILE_SCOPE ∉
      replaceItemInArray ["profile", "a"] OAUTH_TRUSTED_PROFILE_SCOPE
        ["profile:email", "a", "profile:uid"] := by
  refine ⟨by decide, ?_, ?_⟩
  · exact (profile_scope_expansion ["profile", "a"]
      ["profile:email", "a", "profile:uid"]
      (by decide) (by decide) (by decide) (by decide)).1
  · exact (profile_scope_expansion ["profile", "a"]
      ["profile:email", "a", "profile:uid"]
      (by decide) (by decide) (by decide) (by decide)).2.2.1

/-- C5: for an untrusted relier, normalization keeps exactly the
deduplicated scope tokens that are in the allow-list, in their original
order; if the kept list is empty the result — and in general any run whose
final permission list is empty, trusted or not — is INVALID_PARAMETER on
`scope`, and a successful run never stores an empty permission list. -/
theorem untrusted_scope_sanitization (wantsConsentB : Bool)
    (expansion allowed : List String) (scope : String) :
    ((scopeStrToArray scope).filter (fun x => decide (x ∈ allowed)) ≠ [] →
      normalizeScopesAndPermissions false wantsConsentB expansion allowed scope
        = .ok (joinSpace ((scopeStrToArray scope).filter (fun x => decide (x ∈ allowed))),
            (scopeStrToArray scope).filter (fun x => decide (x ∈ allowed)))) ∧
    ((scopeStrToArray scope).filter (fun x => decide (x ∈ allowed)) = [] →
      normalizeScopesAndPermissions false wantsConsentB expansion allowed scope
        = .error (.INVALID_PARAMETER "scope")) ∧
    (∀ (trusted consentB : Bool) (s' : String) (perms : List String),
      normalizeScopesAndPermissions trusted consentB expansion allowed scope
        = .ok (s', perms) → perms ≠ []) := by
  have hfin : finalPermissions false wantsConsentB expansion allowed scope
      = (scopeStrToArray scope).filter (fun x => decide (x ∈ allowed)) := by
    show sanitizeUntrustedPermissions allowed (scopeStrToArray scope)
      = (scopeStrToArray scope).filter (fun x => decide (x ∈ allowed))
    rw [sanitizeUntrustedPermissions,
      intersectionU_eq_filter _ _ (scopeStrToArray_nodup scope)]
  have hnorm : ∀ t c : Bool,
      normalizeScopesAndPermissions t c expansion allowed scope
        = if (finalPermissions t c expansion allowed scope).length = 0
          then .error (.INVALID_PARAMETER "scope")
          else .ok (joinSpace (finalPermissions t c expansion allowed scope),
            finalPermissions t c expansion allowed scope) :=
    fun _ _ => rfl
  refine ⟨fun hne => ?_, fun hnil => ?_, fun t c s' perms h => ?_⟩
  · rw [hnorm, hfin, if_neg (by simpa [List.length_eq_zero] using hne)]
  · rw [hnorm, hfin, if_pos (by simp [hnil])]
  · by_cases hz : (finalPermissions t c expansion allowed scope).length = 0
    · rw [hnorm, if_pos hz] at h
      exact Except.noConfusion h
    · rw [hnorm, if_neg hz] at h
      injection h with h2
      rw [Prod.mk.injEq] at h2
      intro hcontra
      rw [h2.2] at hz
      simp [hcontra] at hz

theorem untrusted_scope_sanitization_witness :
    ((scopeStrToArray "profile secret").filter
        (fun x => decide (x ∈ (["profile"] : List String))) ≠ [] ∧
      normalizeScopesAndPermissions false false [] ["profile"] "profile secret"
        = .ok ("profile", ["profile"])) ∧
    ((scopeStrToArray "secret").filter
        (fun x => decide (x ∈ (["profile"] : List String))) = [] ∧
      normalizeScopesAndPermissions false false [] ["profile"] "secret"
        = .error (.INVALID_PARAMETER "scope")) := by
  constructor
  · refine ⟨by decide, ?_⟩
    exact ((untrusted_scope_sanitization false [] ["profile"] "profile secret").1
      (by decide)).trans (by decide)
  · exact ⟨by decide,
      (untrusted_scope_sanitization false [] ["profile"] "secret").2.1 (by decide)⟩

/-- C2 (amended): on the sign-in/sign-up path, once the query parameters
pass the schema import, a `service` parameter with a non-empty value always
makes `_setupSignInSignUpFlow` fail with INVALID_PARAMETER on `service`.
(The schema import runs first and its own validation error preempts the
`service` check, and an empty-valued `service` is falsy and not rejected —
see the counterexample.) -/
theorem signup_service_param_rejected (v : Validators) (r : SignupRequest)
    (s : String) (hok : importSignInSignUpParams v r = .ok ())
    (hs : r.service = some s) (hne : s ≠ "") :
    setupSignInSignUpFlow v r = .error (.INVALID_PARAMETER "service") := by
  unfold setupSignInSignUpFlow
  rw [hok]
  simp [hs, hne]

/-- C2 counterexample: a request with `service=sync` whose `client_id` is
absent fails the schema import first, with MISSING_PARAMETER on
`client_id`, not with INVALID_PARAMETER on `service` as the claim requires
for every request carrying `service`. -/
theorem signup_service_param_counterexample :
    c2ReqNoClientId.service = some "sync" ∧
    setupSignInSignUpFlow c2Validators c2ReqNoClientId
      = .error (.MISSING_PARAMETER "client_id") ∧
    setupSignInSignUpFlow c2Validators c2ReqNoClientId
      ≠ .error (.INVALID_PARAMETER "service") :=
  ⟨by decide, by decide, by decide⟩

theorem signup_service_param_rejected_witness :
    importSignInSignUpParams c2Validators c2ReqValid = .ok () ∧
    setupSignInSignUpFlow c2Validators c2ReqValid
      = .error (.INVALID_PARAMETER "service") :=
  ⟨by decide, signup_service_param_rejected c2Validators c2ReqValid "sync"
    (by decide) (by decide) (by decide)⟩

/-- C3 (amended): a THROTTLED / REQUEST_BLOCKED sign-in failure is remediated
only when the error itself carries (SIGN_IN, EMAIL_CAPTCHA): then the unblock
email is sent and, on send success, the flow navigates to the unblock screen,
while a failing send surfaces the send failure and navigates nowhere.  A
THROTTLED / REQUEST_BLOCKED error of any other shape surfaces the original
error without attempting the unblock email at all (see the
counterexample against the unconditional claim). -/
theorem blocked_signin_remediation (env : SignInEnv) (broker : Broker)
    (relier : Relier) (after redirectTo : Option String) (a : Account)
    (pw : Option String) (err : AuthError)
    (hdef : a.isDefault = false)
    (htok : a.hasSessionToken = true ∨ hasPassword pw = true)
    (herr : env.signInAccountResult = .error err)
    (hkind : err.kind = .THROTTLED ∨ err.kind = .REQUEST_BLOCKED) :
    (err.verificationReason = some VerificationReason.SIGN_IN ∧
        err.verificationMethod = some VerificationMethod.EMAIL_CAPTCHA →
      (env.sendUnblockResult = .ok () →
        (signIn env broker relier after redirectTo (some a) pw).sentUnblockEmail
            = true ∧
        (signIn env broker relier after redirectTo (some a) pw).result
            = .ok (.navigate "signin_unblock")) ∧
      (∀ e, env.sendUnblockResult = .error e →
        (signIn env broker relier after redirectTo (some a) pw).sentUnblockEmail
            = true ∧
        (signIn env broker relier after redirectTo (some a) pw).result
            = .error e ∧
        ∀ screen, (signIn env broker relier after redirectTo (some a) pw).result
            ≠ .ok (.navigate screen))) ∧
    (¬ (err.verificationReason = some VerificationReason.SIGN_IN ∧
        err.verificationMethod = some VerificationMethod.EMAIL_CAPTCHA) →
      (signIn env broker relier after redirectTo (some a) pw).sentUnblockEmail
          = false ∧
      (signIn env broker relier after redirectTo (some a) pw).result
          = .error err) := by
  have hpre : ¬ (a.isDefault = true ∨
      (a.hasSessionToken = false ∧ hasPassword pw = false)) := by
    rcases htok with h | h <;> simp [hdef, h]
  refine ⟨fun hvm => ⟨fun hok => ?_, fun e he => ?_⟩, fun hvm => ?_⟩
  · simp [signIn, hpre, herr, hkind, onSignInBlocked, hvm, hok]
  · simp [signIn, hpre, herr, hkind, onSignInBlocked, hvm, he]
  · simp [signIn, hpre, herr, hkind, onSignInBlocked, hvm]

/-- C3 counterexample: a THROTTLED failure whose error carries no
verification fields does not send an unblock email and does not navigate to
the unblock screen; the original error surfaces, against the claim that
every THROTTLED / REQUEST_BLOCKED failure leads to the send-then-navigate
remediation. -/
theorem blocked_signin_claim_counterexample :
    c3ErrPlain.kind = .THROTTLED ∧
    c3EnvPlain.sendUnblockResult = .ok () ∧
    (signIn c3EnvPlain c3Broker c3Relier none none (some c3Account)
      (some "hunter2")).sentUnblockEmail = false ∧
    (signIn c3EnvPlain c3Broker c3Relier none none (some c3Account)
      (some "hunter2")).result = .error c3ErrPlain ∧
    (signIn c3EnvPlain c3Broker c3Relier none none (some c3Account)
      (some "hunter2")).result ≠ .ok (.navigate "signin_unblock") :=
  ⟨by decide, by decide, by decide, by decide, by decide⟩

theorem blocked_signin_remediation_witness :
    c3EnvUnblockable.signInAccountResult = .error c3ErrUnblockable ∧
    (signIn c3EnvUnblockable c3Broker c3Relier none none (some c3Account)
      (some "hunter2")).sentUnblockEmail = true ∧
    (signIn c3EnvUnblockable c3Broker c3Relier none none (some c3Account)
      (some "hunter2")).result = .ok (.navigate "signin_unblock") := by
  refine ⟨rfl, ?_⟩
  exact ((blocked_signin_remediation c3EnvUnblockable c3Broker c3Relier none
    none c3Account (some "hunter2") c3ErrUnblockable (by decide)
    (Or.inl (by decide)) rfl (Or.inr (by decide))).1 (by decide)).1 rfl

/-- C7: for an unverified account the computed outcome branches on the
(verificationReason, verificationMethod) pair exactly as claimed:
(SIGN_IN, EMAIL) confirms the sign-in, (SIGN_IN, EMAIL_2FA) goes to the
token-code screen, (SIGN_IN, TOTP_2FA) to the totp-code screen, and every
other unverified combination to the generic confirmation screen. -/
theorem unverified_signin_outcomes (broker : Broker) (relier : Relier)
    (redirectTo after : Option String) (a : Account)
    (hv : a.verified = false) :
    ((a.verificationReason = some VerificationReason.SIGN_IN ∧
        a.verificationMethod = some VerificationMethod.EMAIL) →
      (onSignInSuccess broker relier redirectTo after a).outcome
        = .navigate "confirm_signin") ∧
    ((a.verificationReason = some VerificationReason.SIGN_IN ∧
        a.verificationMethod = some VerificationMethod.EMAIL_2FA) →
      (onSignInSuccess broker relier redirectTo after a).outcome
        = .navigate "signin_token_code") ∧
    ((a.verificationReason = some VerificationReason.SIGN_IN ∧
        a.verificationMethod = some VerificationMethod.TOTP_2FA) →
      (onSignInSuccess broker relier redirectTo after a).outcome
        = .navigate "signin_totp_code") ∧
    (¬ (a.verificationReason = some VerificationReason.SIGN_IN ∧
        a.verificationMethod = some VerificationMethod.EMAIL) →
      ¬ (a.verificationReason = some VerificationReason.SIGN_IN ∧
        a.verificationMethod = some VerificationMethod.EMAIL_2FA) →
      ¬ (a.verificationReason = some VerificationReason.SIGN_IN ∧
        a.verificationMethod = some VerificationMethod.TOTP_2FA) →
      (onSignInSuccess broker relier redirectTo after a).outcome
        = .navigate "confirm") := by
  refine ⟨fun h => ?_, fun h => ?_, fun h => ?_, fun h1 h2 h3 => ?_⟩
  · rcases h with ⟨h1, h2⟩
    simp [onSignInSuccess, hv, h1, h2]
  · rcases h with ⟨h1, h2⟩
    simp [onSignInSuccess, hv, h1, h2]
  · rcases h with ⟨h1, h2⟩
    simp [onSignInSuccess, hv, h1, h2]
  · simp [onSignInSuccess, hv, h1, h2, h3]

theorem unverified_signin_outcomes_witness :
    (Account.mk false true false (some .SIGN_IN) (some .EMAIL_2FA)
        "u" "e" [] []).verified = false ∧
    (onSignInSuccess ⟨false, false⟩ ⟨true, none, "c", [], none⟩ none none
      (Account.mk false true false (some .SIGN_IN) (some .EMAIL_2FA)
        "u" "e" [] [])).outcome = .navigate "signin_token_code" ∧
    (onSignInSuccess ⟨false, false⟩ ⟨true, none, "c", [], none⟩ none none
      (Account.mk false true false (some .SIGN_IN) (some .TOTP_2FA)
        "u" "e" [] [])).outcome = .navigate "signin_totp_code" := by
  refine ⟨by decide, ?_, ?_⟩
  · exact (unverified_signin_outcomes ⟨false, false⟩ ⟨true, none, "c", [], none⟩
      none none _ (by decide)).2.1 (by decide)
  · exact (unverified_signin_outcomes ⟨false, false⟩ ⟨true, none, "c", [], none⟩
      none none _ (by decide)).2.2.1 (by decide)

/-- C8: for a verified account, when the broker lacks `allowUidChange` or the
account uid equals the relier's stored uid, the relier is left unchanged and
the outcome is the result of the post-sign-in broker method; the stored
relier changes only when the uid differs and the broker has the capability,
and then only by storing the new uid. -/
theorem verified_signin_uid_frame (broker : Broker) (relier : Relier)
    (redirectTo after : Option String) (a : Account)
    (hv : a.verified = true) :
    ((broker.allowUidChange = false ∨ relier.uid = some a.uid) →
      (onSignInSuccess broker relier redirectTo after a).relier = relier) ∧
    (onSignInSuccess broker relier redirectTo after a).outcome
      = .brokerResult (after.getD "afterSignIn") ∧
    ((onSignInSuccess broker relier redirectTo after a).relier ≠ relier →
      relier.uid ≠ some a.uid ∧ broker.allowUidChange = true ∧
      (onSignInSuccess broker relier redirectTo after a).relier
        = { relier with uid := some a.uid }) := by
  by_cases hc : some a.uid ≠ relier.uid ∧ broker.allowUidChange = true
  · have hres : (onSignInSuccess broker relier redirectTo after a).relier
        = { relier with uid := some a.uid } ∧
        (onSignInSuccess broker relier redirectTo after a).outcome
          = .brokerResult (after.getD "afterSignIn") := by
      rcases hc with ⟨hne, hcap⟩
      cases redirectTo <;> simp [onSignInSuccess, hv, hne, hcap]
    refine ⟨fun h => ?_, hres.2, fun _ => ⟨fun hh => hc.1 hh.symm, hc.2, hres.1⟩⟩
    rcases h with h | h
    · rw [h] at hc; exact absurd hc.2 (by simp)
    · exact absurd h.symm hc.1
  · have hres : (onSignInSuccess broker relier redirectTo after a).relier
        = relier ∧
        (onSignInSuccess broker relier redirectTo after a).outcome
          = .brokerResult (after.getD "afterSignIn") := by
      cases redirectTo <;> simp [onSignInSuccess, hv, hc]
    exact ⟨fun _ => hres.1, hres.2, fun h => absurd hres.1 h⟩

theorem verified_signin_uid_frame_witness :
    (Account.mk false true true none none "uid2" "e" [] []).verified = true ∧
    (Broker.mk false false).allowUidChange = false ∧
    (onSignInSuccess (Broker.mk false false)
      (Relier.mk true none "c" [] (some "uid1")) none none
      (Account.mk false true true none none "uid2" "e" [] [])).relier
        = Relier.mk true none "c" [] (some "uid1") ∧
    (onSignInSuccess (Broker.mk false false)
      (Relier.mk true none "c" [] (some "uid1")) none none
      (Account.mk false true true none none "uid2" "e" [] [])).outcome
        = .brokerResult "afterSignIn" := by
  refine ⟨by decide, by decide, ?_, ?_⟩
  · exact (verified_signin_uid_frame (Broker.mk false false)
      (Relier.mk true none "c" [] (some "uid1")) none none _ (by decide)).1
      (Or.inl (by decide))
  · exact (verified_signin_uid_frame (Broker.mk false false)
      (Relier.mk true none "c" [] (some "uid1")) none none _ (by decide)).2.1

/-- C10: `accountNeedsPermissions` returns false for a trusted relier that
does not want consent — so such a sign-in can never reach the
permissions-consent screen — and otherwise returns true exactly when some
requested permission for which the account holds a value has not been seen
for this relier's client id. -/
theorem account_needs_permissions_spec (relier : Relier) (account : Account) :
    (accountNeedsPermissions relier account = true ↔
      ¬ (relier.trusted = true ∧ wantsConsent relier = false) ∧
      ∃ p, p ∈ relier.permissions ∧ p ∈ account.permissionsWithValues ∧
        p ∉ seenFor account relier.clientId) ∧
    (relier.trusted = true → wantsConsent relier = false →
      ∀ (env : SignInEnv) (broker : Broker) (after redirectTo : Option String)
        (macct : Option Account) (pw : Option String),
        (signIn env broker relier after redirectTo macct pw).result
          ≠ .ok (.navigate "signin_permissions")) := by
  constructor
  · rw [accountNeedsPermissions]
    by_cases h : relier.trusted = true ∧ wantsConsent relier = false
    · simp [h]
    · rw [if_neg h, Bool.not_eq_true']
      simp only [hasSeenPermissions, getPermissionsWithValues]
      rw [List.all_eq_false]
      simp [List.mem_filter, h, and_assoc]
  · intro ht hc env broker after redirectTo macct pw
    have hneeds : ∀ acct, accountNeedsPermissions relier acct = false :=
      fun acct => by rw [accountNeedsPermissions, if_pos ⟨ht, hc⟩]
    cases macct with
    | none => simp [signIn]
    | some a =>
      simp only [signIn]
      split
      · simp
      · cases hres : env.signInAccountResult with
        | ok acct =>
          simp only [hres, hneeds, Bool.false_eq_true, if_false]
          cases hverif : acct.verified <;> cases redirectTo <;>
            simp only [onSignInSuccess, hverif] <;>
            split_ifs <;> simp_all
        | error err =>
          simp only [hres]
          split
          · simp only [onSignInBlocked]
            split
            · cases henv : env.sendUnblockResult <;> simp
            · simp
          · split <;> simp

theorem account_needs_permissions_spec_witness :
    c10Relier.trusted = true ∧ wantsConsent c10Relier = false ∧
    (signIn ⟨.ok c10Account, .ok ()⟩ ⟨false, false⟩ c10Relier none none
      (some c10Account) (some "hunter2")).result
        ≠ .ok (.navigate "signin_permissions") := by
  refine ⟨by decide, by decide, ?_⟩
  exact (account_needs_permissions_spec c10Relier c10Account).2 (by decide)
    (by decide) ⟨.ok c10Account, .ok ()⟩ ⟨false, false⟩ none none
    (some c10Account) (some "hunter2")

end FxA
